import Mathlib

/-!  Shallow embedding of `bank/bank.py` (a bank statement manager) and proofs
about its data pipeline: column cleanup, CSV ledger read/write, month-coverage
validation, and the outgoings categorizer.  Machine floats only ever carry
exactly representable decimal amounts in the properties below, so numeric
cells are modelled as rationals. -/

namespace Bank

/-! ### String utilities (modelling the Python string operations used) -/

/-- Whitespace characters recognised by Python `str.strip`. -/
def isSpaceChar (c : Char) : Bool := c = ' ' || c = '\t' || c = '\n' || c = '\r'

/-- `str.strip` on a character list. -/
def trimChars (l : List Char) : List Char :=
  ((l.dropWhile isSpaceChar).reverse.dropWhile isSpaceChar).reverse

/-- Python `str.strip`. -/
def pyStrip (s : String) : String := ⟨trimChars s.data⟩

/-- Python `str.title`: uppercase a letter that does not follow a letter,
lowercase letters that do. -/
def titleCaseAux : List Char → Bool → List Char
  | [], _ => []
  | c :: cs, prevAlpha =>
    (if prevAlpha then c.toLower else c.toUpper) :: titleCaseAux cs c.isAlpha

/-- Python `str.title`. -/
def titleCase (s : String) : String := ⟨titleCaseAux s.data false⟩

/-- Python `str.lower`. -/
def lowerStr (s : String) : String := ⟨s.data.map Char.toLower⟩

/-- Decimal digits to a natural number. -/
def natOfDigits (cs : List Char) : Nat := cs.foldl (fun a c => a * 10 + (c.toNat - 48)) 0

/-- Decimal digits to a natural number, `none` unless nonempty and all digits. -/
def natOfDigitsChecked (cs : List Char) : Option Nat :=
  if !cs.isEmpty && cs.all Char.isDigit then some (natOfDigits cs) else none

/-- Python `int(s)`: optional sign and decimal digits, whitespace tolerated. -/
def pyInt? (s : String) : Option Int :=
  match trimChars s.data with
  | '-' :: rest => (natOfDigitsChecked rest).map (fun n => -(n : Int))
  | '+' :: rest => (natOfDigitsChecked rest).map (fun n => (n : Int))
  | cs => (natOfDigitsChecked cs).map (fun n => (n : Int))

/-- Numeric literal parsing as done by `pandas.to_numeric`: optional sign,
integer part, optional fractional part (exponents are not needed here). -/
def parseDecimal? (s : String) : Option Rat :=
  let cs := trimChars s.data
  let signed : Rat × List Char :=
    match cs with
    | '-' :: rest => (-1, rest)
    | '+' :: rest => (1, rest)
    | _ => (1, cs)
  let sgn := signed.1
  let ip := signed.2.takeWhile Char.isDigit
  let rest := signed.2.dropWhile Char.isDigit
  match rest with
  | [] => if ip.isEmpty then none else some (sgn * (natOfDigits ip : Rat))
  | '.' :: fp =>
    if fp.all Char.isDigit && (!ip.isEmpty || !fp.isEmpty) then
      some (sgn * ((natOfDigits ip : Rat) + (natOfDigits fp : Rat) / ((10 : Rat) ^ fp.length)))
    else none
  | _ => none

/-- Does `hay` contain `needle` as a substring (Python `in`)? -/
def containsSub (hay needle : List Char) : Bool :=
  (List.range (hay.length + 1)).any (fun i => needle.isPrefixOf (hay.drop i))

/-- Substring test on strings. -/
def strContains (hay needle : String) : Bool := containsSub hay.data needle.data

/-- Lexicographic comparison of character lists by code point, as Python
compares strings (used by `sort_values` on column names). -/
def lexLeChars : List Char → List Char → Bool
  | [], _ => true
  | _ :: _, [] => false
  | a :: as, b :: bs => if a = b then lexLeChars as bs else decide (a.toNat < b.toNat)

/-- String order used when pandas sorts column labels. -/
def strLe (a b : String) : Prop := lexLeChars a.data b.data = true

instance : DecidableRel strLe := fun _ _ => inferInstanceAs (Decidable (_ = true))

/-! ### Dates -/

/-- Calendar date: `ym` counts months (`year * 12 + (month - 1)`), `day` is the
day of month. -/
structure Date where
  ym : Nat
  day : Nat
deriving DecidableEq

/-- Gregorian leap year. -/
def isLeap (y : Nat) : Bool := y % 4 = 0 && (y % 100 ≠ 0 || y % 400 = 0)

/-- Number of days in month `ym`. -/
def daysInMonth (ym : Nat) : Nat :=
  let m := ym % 12
  if m = 1 then (if isLeap (ym / 12) then 29 else 28)
  else if m = 3 || m = 5 || m = 8 || m = 10 then 30
  else 31

/-- `date + DateOffset(months=1)` (pandas): advance one month, clipping the
day of month to the target month's length. -/
def addMonth (d : Date) : Date := ⟨d.ym + 1, min d.day (daysInMonth (d.ym + 1))⟩

/-- Date comparison: year-month first, then day. -/
def dateLE (a b : Date) : Prop := a.ym < b.ym ∨ (a.ym = b.ym ∧ a.day ≤ b.day)

instance : DecidableRel dateLE := fun a b => by unfold dateLE; infer_instance

/-- Pairwise minimum of two dates. -/
def dateMinB (a b : Date) : Date := if dateLE a b then a else b

/-- Pairwise maximum of two dates. -/
def dateMaxB (a b : Date) : Date := if dateLE a b then b else a

/-- `Series.min` over a date column. -/
def listMinD : List Date → Option Date
  | [] => none
  | d :: ds => some (ds.foldl dateMinB d)

/-- `Series.max` over a date column. -/
def listMaxD : List Date → Option Date
  | [] => none
  | d :: ds => some (ds.foldl dateMaxB d)

/-- Left-pad a string with zeros to width `k`. -/
def padTo (k : Nat) (s : String) : String := ⟨List.replicate (k - s.length) '0' ++ s.data⟩

/-- ISO `YYYY-MM-DD` rendering of a date, as `DataFrame.to_csv` writes
`datetime.date` cells. -/
def isoStr (d : Date) : String :=
  padTo 4 (toString (d.ym / 12)) ++ "-" ++ padTo 2 (toString (d.ym % 12 + 1)) ++ "-"
    ++ padTo 2 (toString d.day)

/-- Split a character list at dashes. -/
def splitDashAux : List Char → List Char → List (List Char)
  | [], acc => [acc.reverse]
  | c :: rest, acc =>
    if c = '-' then acc.reverse :: splitDashAux rest []
    else splitDashAux rest (c :: acc)

/-- Parse an ISO `YYYY-MM-DD` date string: the format the CSV codec emits,
which `pandas.to_datetime` (even with `dayfirst=True`) reads back as ISO. -/
def parseIso? (s : String) : Option Date :=
  match splitDashAux (trimChars s.data) [] with
  | [y, m, d] =>
    match natOfDigitsChecked y, natOfDigitsChecked m, natOfDigitsChecked d with
    | some yn, some mn, some dn =>
      if 1 ≤ mn ∧ mn ≤ 12 ∧ 1 ≤ dn ∧ dn ≤ 31 then some ⟨yn * 12 + (mn - 1), dn⟩ else none
    | _, _, _ => none
  | _ => none

/-! ### Values and frames -/

/-- A cell value: text, numeric (Python float, exactly representable amounts
only, modelled as a rational), parsed date, or missing (`NaN`). -/
inductive Value
  | str (s : String)
  | num (q : Rat)
  | date (d : Date)
  | na
deriving DecidableEq

/-- A tabular dataset: column names plus rows aligned with them. -/
structure Frame where
  cols : List String
  rows : List (List Value)
deriving DecidableEq

/-- Python exceptions surfaced by the modelled code. -/
inductive PyErr
  | keyError | valueError | attributeError | fileNotFound
deriving DecidableEq

/-- Index of a column name. -/
def idxOf? (c : String) : List String → Option Nat
  | [] => none
  | x :: xs => if x = c then some 0 else (idxOf? c xs).map (· + 1)

/-- Cell at position `i` of a row (missing cells read as `NaN`). -/
def getCell (r : List Value) (i : Nat) : Value := r.getD i .na

/-- Column access `df[c]`, raising `KeyError` when absent. -/
def getCol (f : Frame) (c : String) : Except PyErr (List Value) :=
  match idxOf? c f.cols with
  | some i => .ok (f.rows.map (fun r => getCell r i))
  | none => .error .keyError

/-- Column values, empty when the column is absent (internal helper). -/
def getColD (f : Frame) (c : String) : List Value :=
  match idxOf? c f.cols with
  | some i => f.rows.map (fun r => getCell r i)
  | none => []

/-- Transform every value of column `c` in place. -/
def mapCol (f : Frame) (c : String) (g : Value → Value) : Frame :=
  match idxOf? c f.cols with
  | some i => ⟨f.cols, f.rows.map (fun r => r.set i (g (getCell r i)))⟩
  | none => f

/-- Remove column `c` (`del df[c]`). -/
def delCol (f : Frame) (c : String) : Frame :=
  match idxOf? c f.cols with
  | some i => ⟨f.cols.eraseIdx i, f.rows.map (fun r => r.eraseIdx i)⟩
  | none => f

/-- The canonical five-column schema (`COLUMN_NAMES` in bank.py). -/
def COLUMN_NAMES : List String := ["Date", "Type", "Description", "Amount", "Balance"]

/-! ### Excel reading (bank.py:133-173) -/

/-- Outcome of `xl.parse(sheet, skiprows=skip, converters=COLUMN_TYPES)` for a
given skip count: the underlying parser either reports the sheet missing
(`XLRDError`) or yields a raw frame (the `TypeError` retry without converters
is folded into the successful outcome). -/
inductive ParseOutcome
  | sheetNotFound
  | ok (f : Frame)
deriving DecidableEq

/-- Number of parser-synthesised placeholder columns in a raw frame. -/
def unnamedCount (f : Frame) : Nat := (f.cols.filter (fun c => strContains c "Unnamed")).length

/-- The header-detection `while True` loop of `read_from_excel` for one sheet,
with explicit fuel counting loop iterations; `none` means the loop has not
produced a frame within the given fuel.  On `XLRDError` the source prints
`ERROR: sheet not found` and executes `continue`, which re-enters the `while`
with the same `skip`; `plain` is the converter-free full re-parse used once
`skip` exceeds 10 (a missing sheet there would crash the call, also `none`). -/
def headerLoop (parse : Nat → ParseOutcome) (plain : ParseOutcome) :
    Nat → Nat → Option Frame
  | 0, _ => none
  | fuel + 1, skip =>
    match parse skip with
    | .sheetNotFound => headerLoop parse plain fuel skip
    | .ok df =>
      if unnamedCount df * 2 < df.cols.length then some df
      else if skip + 1 > 10 then
        match plain with
        | .ok df2 => some df2
        | .sheetNotFound => none
      else headerLoop parse plain fuel (skip + 1)

/-- The sheet iteration of `read_from_excel`: run the header-detection loop on
every requested sheet in order (the source then cleans and concatenates the
per-sheet frames; a sheet whose loop never terminates makes the whole call
diverge, recorded as `none`). -/
def readExcelSheets (wb : String → Nat → ParseOutcome) (plain : String → ParseOutcome)
    (fuel : Nat) (names : List String) : Option (List Frame) :=
  names.mapM (fun sht => headerLoop (wb sht) (plain sht) fuel 0)

/-- A workbook whose parser reports the sheet `Missing` as nonexistent (for
every skip count), while other sheet names parse to a clean empty frame. -/
def missingSheetWb : String → Nat → ParseOutcome := fun sht _ =>
  if sht = "Missing" then .sheetNotFound else .ok ⟨COLUMN_NAMES, []⟩

/-- The converter-free parses of the same workbook. -/
def missingSheetPlain : String → ParseOutcome := fun sht =>
  if sht = "Missing" then .sheetNotFound else .ok ⟨COLUMN_NAMES, []⟩

/-! ### File import (bank.py:240-263) -/

/-- `os.path.splitext(name)[1].lower()`: the extension including its dot
(leading-dot basenames are not modelled). -/
def extOf (s : String) : String :=
  let rev := s.data.reverse
  let pre := rev.takeWhile (fun c => c ≠ '.')
  if pre.length = rev.length then "" else ⟨('.' :: pre.reverse).map Char.toLower⟩

/-- `fnmatch(ext, "*.csv")`: the extension ends with `.csv`. -/
def isCsvFile (name : String) : Bool := ".csv".data.isSuffixOf (extOf name).data

/-- `fnmatch(ext, "*.xls*")`: the extension contains `.xls`. -/
def isExcelFile (name : String) : Bool := strContains (extOf name) ".xls"

/-- A source path together with the normalized dataset that reading it yields
(`read_from_csv` / `read_from_excel`, applied per file by the source). -/
structure SourceFile where
  name : String
  data : Frame
deriving DecidableEq

/-- The file loop of `import_file` (bank.py:247-255): each iteration *assigns*
`ac` to the dataset read from the current file, overwriting the previous one;
an unsupported extension raises `ValueError`. -/
def importLoop : Option Frame → List SourceFile → Except PyErr (Option Frame)
  | ac, [] => .ok ac
  | _, f :: rest =>
    if isCsvFile f.name then importLoop (some f.data) rest
    else if isExcelFile f.name then importLoop (some f.data) rest
    else .error .valueError

/-- `import_file` up to the point where the loop result `ac` is checked for
emptiness and written or printed. -/
def import_file (files : List SourceFile) : Except PyErr (Option Frame) :=
  importLoop none files

/-- Modelled from the spec's words, for comparison: one dataset per source
path, concatenated in path order. -/
def specImportConcat (files : List SourceFile) : Option Frame :=
  match files with
  | [] => none
  | f :: rest => some (rest.foldl (fun acc g => ⟨acc.cols, acc.rows ++ g.data.rows⟩) f.data)

/-- Concrete single-row CSV source `a.csv`. -/
def csvFileA : SourceFile := ⟨"a.csv", ⟨COLUMN_NAMES, [[.str "a", .na, .na, .na, .na]]⟩⟩

/-- Concrete single-row CSV source `b.csv`. -/
def csvFileB : SourceFile := ⟨"b.csv", ⟨COLUMN_NAMES, [[.str "b", .na, .na, .na, .na]]⟩⟩

/-! ### Category rule store and the interactive learning step -/

/-- The category rule store: exact-text rules and pattern rules (the version
tag plays no role in the properties below). -/
structure Config where
  categories : List (String × String)
  regexes : List (String × String)
deriving DecidableEq

/-- `d[k] = v` on an association list (Python dict assignment: overwrite the
existing key or append a new one). -/
def setKey (m : List (String × String)) (k v : String) : List (String × String) :=
  if m.any (fun p => p.1 == k) then m.map (fun p => if p.1 == k then (k, v) else p)
  else m ++ [(k, v)]

/-- Python list indexing `l[i]` including negative-index semantics; `none`
models `IndexError`. -/
def pyIndex? (l : List String) (i : Int) : Option String :=
  if 0 ≤ i then l.get? i.toNat
  else if (-i).toNat ≤ l.length then l.get? (l.length - (-i).toNat) else none

/-- `_add_category_regex` in `calc_outgoings` (bank.py:305-314): the answer is
converted with `int`; a numeric answer indexes `all_categories` at
`int(category) - 1` (`IndexError` is reported and the store left unchanged);
a non-numeric answer (`ValueError` from `int`) becomes a new category stored
as given and appended to the category list. -/
def addCategoryRegex (config : Config) (allCategories : List String)
    (item category : String) (isRegex : Bool) : Config × List String :=
  match pyInt? category with
  | some n =>
    match pyIndex? allCategories (n - 1) with
    | some cat =>
      if isRegex then ({ config with regexes := setKey config.regexes item cat }, allCategories)
      else ({ config with categories := setKey config.categories item cat }, allCategories)
    | none => (config, allCategories)
  | none =>
    if isRegex then
      ({ config with regexes := setKey config.regexes item category }, allCategories ++ [category])
    else
      ({ config with categories := setKey config.categories item category },
        allCategories ++ [category])

/-! ### Validation (bank.py:205-222) -/

/-- `pd.date_range(start, end, freq=pd.DateOffset(months=1))`: iterate
`addMonth` from `start` while the result stays at or before `end`; the fuel
counts iterations and is always sufficient at the call site. -/
def dateRangeAux : Nat → Date → Date → List Date
  | 0, _, _ => []
  | fuel + 1, cur, e => if dateLE cur e then cur :: dateRangeAux fuel (addMonth cur) e else []

/-- The month range used by `validate`. -/
def dateRange (s e : Date) : List Date := dateRangeAux (e.ym + 2 - s.ym) s e

/-- `sorted(...)` on month numbers. -/
def sortNat (l : List Nat) : List Nat := List.insertionSort (fun a b => a ≤ b) l

/-- `d.strftime("%Y-%m")` via `.apply`, which fails on non-date cells. -/
def toDate? : Value → Option Date
  | .date d => some d
  | _ => none

/-- Apply `toDate?` across a column, failing on the first non-date cell. -/
def mapToDates : List Value → Option (List Date)
  | [] => some []
  | v :: vs =>
    match toDate? v with
    | some d => (mapToDates vs).map (fun ds => d :: ds)
    | none => none

/-- The month-coverage step of `validate` (bank.py:213-222): expected months
from `date_range(min, max)`, reported missing months
`sorted(set(expected) - set(actual))`, and the boolean result `not missing`. -/
def validateMonths (mn mx : Date) (actual : List Nat) : List Nat × Bool :=
  let expected := (dateRange mn mx).map Date.ym
  let missing := sortNat (expected.dedup.filter (fun m => !(actual.contains m)))
  (missing, missing.isEmpty)

/-- `validate` (bank.py:205-222).  The result pairs the reported missing
months (the `No entries found in …` lines, as `ym` numbers) with the boolean
return value.  After the column check, the month-coverage step reads the
`Date` column unconditionally: a missing column raises `KeyError`, a non-date
cell breaks `strftime` (`AttributeError`), an empty column breaks
`date_range` (`ValueError`). -/
def validate (f : Frame) (continueOnErr : Bool) : Except PyErr (List Nat × Bool) :=
  let missingCols := COLUMN_NAMES.filter (fun col => !(f.cols.contains col))
  if !missingCols.isEmpty && !continueOnErr then .ok ([], false)
  else
    (getCol f "Date").bind fun vals =>
      match mapToDates vals with
      | none => .error .attributeError
      | some dates =>
        match listMinD dates, listMaxD dates with
        | some mn, some mx => .ok (validateMonths mn mx (dates.map Date.ym))
        | _, _ => .error .valueError

/-- Modelled from the spec's words, for comparison: the year-month buckets of
the full contiguous month range from the earliest to the latest date
(inclusive) that are absent from the `Date` column. -/
def specMissingMonths (mn mx : Date) (actual : List Nat) : List Nat :=
  (List.range' mn.ym (mx.ym + 1 - mn.ym)).filter (fun m => !(actual.contains m))

/-- A frame with the five canonical columns whose dates are 1 Jan 2015 and
10 Mar 2015 (months 24180 and 24182), leaving February 2015 (24181) missing. -/
def c4Frame : Frame :=
  ⟨COLUMN_NAMES,
    [[.date ⟨24180, 1⟩, .na, .na, .na, .na], [.date ⟨24182, 10⟩, .na, .na, .na, .na]]⟩

/-- The dates of `c4Frame`. -/
def c4Dates : List Date := [⟨24180, 1⟩, ⟨24182, 10⟩]

/-! ### Categorizer (bank.py:325-336) -/

/-- Exact-rule lookup: `Series.replace` with a plain mapping replaces a cell
equal to a key by that key's value (one simultaneous pass, no chaining inside
the mapping). -/
def lookupExact : List (String × String) → String → Option String
  | [], _ => none
  | p :: ps, s => if p.1 = s then some p.2 else lookupExact ps s

/-- `ac.replace(to_replace={"Description": categories})` on one cell. -/
def replaceExact (rules : List (String × String)) (s : String) : String :=
  (lookupExact rules s).getD s

/-- Replace every occurrence of `pat` in `l` by `rep` (`re.sub` with a literal
pattern; the pattern rules exercised in these properties are literal). -/
def replaceSubAux (pat rep : List Char) : Nat → List Char → List Char
  | 0, l => l
  | fuel + 1, l =>
    if pat.isPrefixOf l && !pat.isEmpty then
      rep ++ replaceSubAux pat rep fuel (l.drop pat.length)
    else
      match l with
      | [] => []
      | c :: cs => c :: replaceSubAux pat rep fuel cs

/-- Substring substitution on strings. -/
def strReplaceAll (s pat rep : String) : String :=
  ⟨replaceSubAux pat.data rep.data (s.data.length + 1) s.data⟩

/-- `ac.replace(regex={"Description": regexes})` on one cell: every pattern
rule is applied in turn as a substitution over the current value. -/
def replacePatterns (rules : List (String × String)) (s : String) : String :=
  rules.foldl (fun acc p => strReplaceAll acc p.1 p.2) s

/-- The `Description` relabelling of `calc_outgoings` (bank.py:330-331): the
exact-rule replace runs first, the pattern-rule replace runs afterwards on
its result. -/
def applyRules (cfg : Config) (s : String) : String :=
  replacePatterns cfg.regexes (replaceExact cfg.categories s)

/-- String comparison as a boolean (pandas sorts group keys). -/
def strLeB (a b : String) : Bool := lexLeChars a.data b.data

/-- Insert into a sorted list of strings. -/
def insertSorted (x : String) : List String → List String
  | [] => [x]
  | y :: ys => if strLeB x y then x :: y :: ys else y :: insertSorted x ys

/-- Sort strings ascending (insertion sort). -/
def sortStrings : List String → List String
  | [] => []
  | x :: xs => insertSorted x (sortStrings xs)

/-- Distinct elements, first occurrences kept. -/
def dedupFirstAux (seen : List String) : List String → List String
  | [] => []
  | x :: xs => if seen.contains x then dedupFirstAux seen xs else x :: dedupFirstAux (x :: seen) xs

/-- Distinct elements of a list of strings. -/
def dedupFirst (l : List String) : List String := dedupFirstAux [] l

/-- Sum of the amounts grouped under key `k`. -/
def sumFor (l : List (String × Rat)) (k : String) : Rat :=
  (l.filter (fun p => p.1 == k)).foldl (fun a p => a + p.2) 0

/-- `ac.groupby("Description").sum(numeric_only=True)["Amount"]`: one total per
distinct label, labels in ascending order. -/
def groupSum (l : List (String × Rat)) : List (String × Rat) :=
  (sortStrings (dedupFirst (l.map (fun p => p.1)))).map (fun k => (k, sumFor l k))

/-- The summary of `calc_outgoings` (bank.py:325-336) on (Description, Amount)
pairs: relabel with the rule store, group and sum, keep the groups whose label
is one of the configured category values, and collapse the rest into a single
`Other` total. -/
def calc_summary (cfg : Config) (rows : List (String × Rat)) : List (String × Rat) :=
  let allItems := cfg.categories.map (fun p => p.2) ++ cfg.regexes.map (fun p => p.2)
  let labeled := rows.map (fun r => (applyRules cfg r.1, r.2))
  let grouped := groupSum labeled
  let known := grouped.filter (fun g => allItems.contains g.1)
  let unknown := grouped.filter (fun g => !(allItems.contains g.1))
  known ++ [("Other", unknown.foldl (fun a p => a + p.2) 0)]

/-- The rule store of the aggregation example in the spec. -/
def c6Config : Config :=
  ⟨[("Item 1", "Food"), ("Item 2", "Entertainment"), ("Item 4", "Entertainment")], []⟩

/-- The rows of the aggregation example in the spec. -/
def c6Rows : List (String × Rat) := [("Item 1", 1), ("Item 2", 5/2), ("Item 3", 2), ("Item 4", -2)]

/-- A store where a pattern rule matches the label produced by an exact rule:
exact `Item 1 → Food`, pattern `Foo → Junk`. -/
def c3Config : Config := ⟨[("Item 1", "Food")], [("Foo", "Junk")]⟩

/-! ### Saving the rule store (bank.py:368-371) -/

/-- File-system state for the config save: whether the config directory exists
and the config file contents (`none` = absent, `some none` = opened and
truncated, `some (some c)` = written). -/
structure FileSys where
  configDirExists : Bool
  configFile : Option (Option Config)
deriving DecidableEq

/-- `open(CONFIG_PATH, mode="w")`: requires the parent directory, truncates. -/
def openForWrite (fs : FileSys) : Except PyErr FileSys :=
  if fs.configDirExists then .ok { fs with configFile := some none }
  else .error .fileNotFound

/-- `os.makedirs(os.path.dirname(CONFIG_PATH), exist_ok=True)`. -/
def makeDirsConfig (fs : FileSys) : Except PyErr FileSys :=
  .ok { fs with configDirExists := true }

/-- `json.dump(config, fp)`. -/
def jsonDump (cfg : Config) (fs : FileSys) : Except PyErr FileSys :=
  .ok { fs with configFile := some (some cfg) }

/-- The save sequence at bank.py:368-371 in source order: `open(CONFIG_PATH,
"w")` runs first; `os.makedirs(..., exist_ok=True)` only runs afterwards,
inside the `with` block; then `json.dump`. -/
def saveConfig (cfg : Config) (fs : FileSys) : Except PyErr FileSys := do
  let fs1 ← openForWrite fs
  let fs2 ← makeDirsConfig fs1
  jsonDump cfg fs2


/-- Decidable equality for the modelled results. -/
instance {e a : Type _} [DecidableEq e] [DecidableEq a] : DecidableEq (Except e a) := fun x y =>
  match x, y with
  | .error u, .error v =>
    match decEq u v with
    | isTrue h => isTrue (h ▸ rfl)
    | isFalse h => isFalse fun hh => h (Except.error.inj hh)
  | .error _, .ok _ => isFalse Except.noConfusion
  | .ok _, .error _ => isFalse Except.noConfusion
  | .ok u, .ok v =>
    match decEq u v with
    | isTrue h => isTrue (h ▸ rfl)
    | isFalse h => isFalse fun hh => h (Except.ok.inj hh)

/-! ### Column cleanup (bank.py:82-131) -/

/-- The alias list (`ALIASES` in bank.py), applied in order. -/
def ALIASES : List (String × String) :=
  [("Merchant", "Description"), ("Merchant/Description", "Description"),
   ("Balance (£)", "Balance"), ("Debit/Credit", "Amount"), ("Paid out", "Amount"),
   ("Billing Amount", "Amount"), ("Transaction Date", "Date")]

/-- The columns whose declared type in `COLUMN_TYPES` is `float`. -/
def floatColumns : List String :=
  ["Amount", "Balance", "Balance (£)", "Debit/Credit", "Paid out", "Paid in", "Billing Amount"]

/-- Is the cell a text cell? -/
def isStrV : Value → Bool
  | .str _ => true
  | _ => false

/-- `.str.strip()` applies when the column's dtype is `object`: its cells are
strings, possibly with missing values. -/
def stringColB (vals : List Value) : Bool :=
  vals.any isStrV && vals.all (fun v => isStrV v || v == Value.na)

/-- Strip one cell. -/
def stripValue : Value → Value
  | .str s => .str (pyStrip s)
  | v => v

/-- The `[£,]` removal before `to_numeric`. -/
def stripMoneyChars (s : String) : String := ⟨s.data.filter (fun c => !(c = '£' || c = ','))⟩

/-- `pd.to_numeric(..., errors="coerce")` on one cell. -/
def toNumericValue : Value → Value
  | .str s =>
    match parseDecimal? (stripMoneyChars s) with
    | some q => .num q
    | none => .na
  | .num q => .num q
  | .date _ => .na
  | .na => .na

/-- The non-missing cells of a column. -/
def nonNA (vals : List Value) : List Value := vals.filter (fun v => !(v == Value.na))

/-- The debit/credit sniff (bank.py:106): at least one non-missing value and
every non-missing value in `{D, C}`. -/
def isDCCol (vals : List Value) : Bool :=
  !(nonNA vals).isEmpty
    && (nonNA vals).all (fun v => v == Value.str "D" || v == Value.str "C")

/-- Negate a numeric cell. -/
def negValue : Value → Value
  | .num q => .num (-q)
  | v => v

/-- `df.loc[df[col] == "D", "Balance"] = -…` (bank.py:108); a missing
`Balance` column raises `KeyError`, which the source catches and ignores. -/
def negBalanceWhereD (f : Frame) (c : String) : Frame :=
  match idxOf? c f.cols, idxOf? "Balance" f.cols with
  | some i, some j =>
    ⟨f.cols, f.rows.map (fun r =>
      if getCell r i == Value.str "D" then r.set j (negValue (getCell r j)) else r)⟩
  | _, _ => f

/-- One iteration of the per-column loop of `cleanup_columns`
(bank.py:91-115): strip string values, coerce declared-float columns to
numeric, apply the debit/credit sign fix, and delete placeholder columns. -/
def cleanupColumnStep (f : Frame) (c : String) : Frame :=
  let f1 := if stringColB (getColD f c) then mapCol f c stripValue else f
  let f2 := if floatColumns.contains c then mapCol f1 c toNumericValue else f1
  let f3 := if isDCCol (getColD f2 c) then negBalanceWhereD f2 c else f2
  if strContains c "Unnamed" then delCol f3 c else f3

/-- The `Paid in` folding (bank.py:117-120).  After title-casing, the column
is actually named `Paid In`, so on cleaned names this never fires; it is kept
for faithfulness (the branch where `Amount` is absent, in which pandas would
create it, is not modelled since it is unreachable here). -/
def paidInFold (f : Frame) : Frame :=
  if f.cols.contains "Paid in" then
    match idxOf? "Paid in" f.cols, idxOf? "Amount" f.cols with
    | some i, some j =>
      delCol ⟨f.cols, f.rows.map (fun r =>
        if getCell r i == Value.na then r else r.set j (negValue (getCell r i)))⟩ "Paid in"
    | _, _ => f
  else f

/-- `pd.to_datetime(…, dayfirst=True).dt.date` on one cell: date cells pass
through, ISO text parses, missing stays missing, numbers fail. -/
def parseDateCell : Value → Option Value
  | .date d => some (.date d)
  | .str s => (parseIso? s).map Value.date
  | .na => some .na
  | .num _ => none

/-- Parse a whole `Date` column; `none` models the `ValueError`. -/
def mapParseDates : List Value → Option (List Value)
  | [] => some []
  | v :: vs =>
    match parseDateCell v with
    | some w => (mapParseDates vs).map (fun ws => w :: ws)
    | none => none

/-- The `Date` step of `cleanup_columns` (bank.py:122-130): a missing column
only warns; a parse failure raises `ValueError` unless `continue_on_err`, in
which case the column is left unchanged. -/
def cleanupDate (continueOnErr : Bool) (f : Frame) : Except PyErr Frame :=
  match idxOf? "Date" f.cols with
  | none => .ok f
  | some i =>
    match mapParseDates (f.rows.map (fun r => getCell r i)) with
    | some parsed => .ok ⟨f.cols, (f.rows.zip parsed).map (fun p => p.1.set i p.2)⟩
    | none => if continueOnErr then .ok f else .error .valueError

/-- Column-name cleanup (bank.py:86-87): strip, then title-case. -/
def cleanColNames (f : Frame) : Frame :=
  ⟨f.cols.map (fun c => titleCase (pyStrip c)), f.rows⟩

/-- The alias renames (bank.py:88-89), in order. -/
def applyAliases (f : Frame) : Frame :=
  ALIASES.foldl
    (fun fr al => ⟨fr.cols.map (fun c => if c = al.1 then al.2 else c), fr.rows⟩) f

/-- The per-column loop (bank.py:91-115) over the column snapshot. -/
def cleanupLoop (f : Frame) : Frame := f.cols.foldl cleanupColumnStep f

/-- `cleanup_columns` (bank.py:82-131). -/
def cleanup_columns (continueOnErr : Bool) (f : Frame) : Except PyErr Frame :=
  cleanupDate continueOnErr (paidInFold (cleanupLoop (applyAliases (cleanColNames f))))

/-! ### CSV ledger (bank.py:176-202) -/

/-- Serialization of one cell by `to_csv`: dates become ISO text; text and
exactly-representable numbers round-trip through the CSV text unchanged, so
they are kept as values. -/
def toCsvCell : Value → Value
  | .date d => .str (isoStr d)
  | v => v

/-- The ledger file contents produced by `df.to_csv(..., index=False)`. -/
def toCsvFile (f : Frame) : Frame := ⟨f.cols, f.rows.map (fun r => r.map toCsvCell)⟩

/-- `read_from_csv` (bank.py:176-179): parse the ledger file and clean it. -/
def read_from_csv (file : Frame) (continueOnErr : Bool) : Except PyErr Frame :=
  cleanup_columns continueOnErr file

/-- Union of column lists, left to right (`union_indexes`). -/
def unionCols (a b : List String) : List String := a ++ b.filter (fun c => !(a.contains c))

/-- Ascending sort of column labels (applied by `pd.concat(..., sort=True)`
and by `sort_values` in the schema check). -/
def sortCols (l : List String) : List String := List.insertionSort strLe l

/-- Align a row from `cols` to `outCols`, filling missing columns with
missing values. -/
def reindexRow (cols outCols : List String) (r : List Value) : List Value :=
  outCols.map (fun c =>
    match idxOf? c cols with
    | some i => getCell r i
    | none => Value.na)

/-- `pd.concat([a, b], sort=True)`: union the columns, sort them, and stack
the reindexed rows. -/
def concatSorted (a b : Frame) : Frame :=
  ⟨sortCols (unionCols a.cols b.cols),
    a.rows.map (reindexRow a.cols (sortCols (unionCols a.cols b.cols)))
      ++ b.rows.map (reindexRow b.cols (sortCols (unionCols a.cols b.cols)))⟩

/-- `drop_duplicates`: keep the first occurrence of each row. -/
def dropDupAux (seen : List (List Value)) : List (List Value) → List (List Value)
  | [] => []
  | r :: rest =>
    if seen.contains r then dropDupAux seen rest
    else r :: dropDupAux (r :: seen) rest

/-- `drop_duplicates` over the rows. -/
def dropDup (l : List (List Value)) : List (List Value) := dropDupAux [] l

/-- Case-insensitive sorted column labels (`columns.str.lower().sort_values()`
used by the schema check). -/
def checkKey (cols : List String) : List String := sortCols (cols.map lowerStr)

/-- `write_to_csv` (bank.py:182-202) acting on the ledger path state (`none`
when the file does not exist).  Returns the new path state; a schema mismatch
without `continue_on_err` returns with the file untouched. -/
def write_to_csv (df : Frame) (file : Option Frame)
    (removeDuplicates checkColumns continueOnErr : Bool) : Except PyErr (Option Frame) :=
  match file with
  | none => .ok (some (toCsvFile df))
  | some existing =>
    (read_from_csv existing false).bind fun dfExisting =>
      if checkColumns && !(checkKey dfExisting.cols == checkKey df.cols) && !continueOnErr then
        .ok (some existing)
      else
        let out := concatSorted dfExisting df
        let out2 := if removeDuplicates then Frame.mk out.cols (dropDup out.rows) else out
        .ok (some (toCsvFile out2))

/-- Writing a dataset once to a fresh ledger path, with de-duplication on. -/
def writeOnceState (df : Frame) : Except PyErr (Option Frame) :=
  write_to_csv df none true true false

/-- Writing the same dataset twice to a fresh ledger path, with de-duplication
on. -/
def writeTwiceState (df : Frame) : Except PyErr (Option Frame) :=
  (write_to_csv df none true true false).bind fun s1 =>
    write_to_csv df s1 true true false

/-- A normalized transaction row whose cells survive the CSV text codec: a
date whose ISO text is whitespace-free and parses back to the same date, and
trimmed text cells. -/
def GoodRow (r : List Value) : Prop :=
  ∃ d t s a b, r = [.date d, .str t, .str s, .num a, .num b] ∧
    pyStrip (isoStr d) = isoStr d ∧ parseIso? (isoStr d) = some d ∧
    pyStrip t = t ∧ pyStrip s = s

/-- The serialized form of a row. -/
def serRow (r : List Value) : List Value := r.map toCsvCell

/-- A normalized frame that was itself produced by `cleanup_columns`: the raw
frame below cleans to it (`c8Norm` has a debit/credit indicator column). -/
def c8Raw : Frame :=
  ⟨COLUMN_NAMES,
    [[.str "2016-01-01", .str "D", .str "x", .num 1, .num (-10)],
     [.str "2016-01-02", .str "C", .str "y", .num 2, .num 20]]⟩

/-- The normalized dataset `cleanup_columns` produces from `c8Raw`. -/
def c8Norm : Frame :=
  ⟨COLUMN_NAMES,
    [[.date ⟨24192, 1⟩, .str "D", .str "x", .num 1, .num 10],
     [.date ⟨24192, 2⟩, .str "C", .str "y", .num 2, .num 20]]⟩

/-- What reading the written ledger of `c8Norm` yields: the sign heuristic
fires again and re-negates the first row's balance. -/
def c8Readback : Frame :=
  ⟨COLUMN_NAMES,
    [[.date ⟨24192, 1⟩, .str "D", .str "x", .num 1, .num (-10)],
     [.date ⟨24192, 2⟩, .str "C", .str "y", .num 2, .num 20]]⟩

/-- A normalized single-row dataset in canonical column order (used for the
ledger idempotence counterexample). -/
def c7Frame : Frame :=
  ⟨COLUMN_NAMES, [[.date ⟨24192, 1⟩, .str "A", .str "x", .num 1, .num 1]]⟩

/-- A normalized single-row dataset whose columns are already alphabetically
sorted (used for the ledger idempotence witness). -/
def c7SortedFrame : Frame :=
  ⟨["Amount", "Balance", "Date", "Description", "Type"],
    [[.num 1, .num 2, .date ⟨24192, 1⟩, .str "x", .str "A"]]⟩
/-! ## Theorems -/

/-- If the parser reports the sheet missing at every skip count, the header
loop never produces a frame, at any fuel: the `continue` retries forever. -/
theorem headerLoop_missing_forever (parse : Nat → ParseOutcome) (plain : ParseOutcome)
    (h : ∀ k, parse k = .sheetNotFound) (fuel skip : Nat) :
    headerLoop parse plain fuel skip = none := by
  induction fuel generalizing skip with
  | zero => rfl
  | succ n ih => simp [headerLoop, h skip, ih]

/-- **C1** (code evaluation at the failing input): requesting the nonexistent
sheet `Missing` followed by an existing sheet makes `read_from_excel` retry
the same failed parse forever (the `continue` re-enters the `while True`
with the same skip count), never skipping the sheet and never returning a
result for the remaining sheets — for any number of loop iterations. -/
theorem c1_missing_sheet_retries_forever (fuel skip : Nat) :
    headerLoop (missingSheetWb "Missing") (missingSheetPlain "Missing") fuel skip = none ∧
      readExcelSheets missingSheetWb missingSheetPlain fuel ["Missing", "Sheet1"] = none := by
  have hm : ∀ k, missingSheetWb "Missing" k = .sheetNotFound := fun k => rfl
  refine ⟨headerLoop_missing_forever _ _ hm fuel skip, ?_⟩
  simp [readExcelSheets, List.mapM, List.mapM.loop, headerLoop_missing_forever _ _ hm fuel 0]

/-- A supported file makes the import loop overwrite its accumulator. -/
theorem importLoop_cons_supported (init : Option Frame) (g : SourceFile)
    (rest : List SourceFile) (h : isCsvFile g.name = true ∨ isExcelFile g.name = true) :
    importLoop init (g :: rest) = importLoop (some g.data) rest := by
  rcases h with h | h
  · simp [importLoop, h]
  · cases hc : isCsvFile g.name <;> simp [importLoop, hc, h]

/-- The import loop over supported files ends with the last file's dataset. -/
theorem importLoop_last (files : List SourceFile) (f : SourceFile) (init : Option Frame)
    (hs : ∀ g ∈ files ++ [f], isCsvFile g.name = true ∨ isExcelFile g.name = true) :
    importLoop init (files ++ [f]) = .ok (some f.data) := by
  induction files generalizing init with
  | nil =>
    rw [List.nil_append, importLoop_cons_supported init f [] (hs f (by simp))]
    rfl
  | cons g gs ih =>
    rw [List.cons_append, importLoop_cons_supported init g _ (hs g (by simp))]
    exact ih _ (fun x hx => hs x (by simp only [List.cons_append, List.mem_cons]; exact .inr hx))

/-- **C2** (counterexample): importing the two CSV paths `a.csv`, `b.csv`
yields only the second path's dataset, not the concatenation of both. -/
theorem c2_import_not_concatenation :
    import_file [csvFileA, csvFileB] = .ok (some csvFileB.data) ∧
      specImportConcat [csvFileA, csvFileB]
        = some ⟨COLUMN_NAMES, csvFileA.data.rows ++ csvFileB.data.rows⟩ ∧
      some csvFileB.data ≠ specImportConcat [csvFileA, csvFileB] := by
  refine ⟨rfl, rfl, ?_⟩
  decide

/-- **C2** (amended): for every list of supported input paths, the final
dataset of `import_file` is the dataset of the *last* path alone — each loop
iteration overwrites `ac`, so earlier paths' datasets are read and then
discarded rather than concatenated. -/
theorem c2_import_file_keeps_last (files : List SourceFile) (f : SourceFile)
    (hs : ∀ g ∈ files ++ [f], isCsvFile g.name = true ∨ isExcelFile g.name = true) :
    import_file (files ++ [f]) = .ok (some f.data) :=
  importLoop_last files f none hs

/-- Witness for `c2_import_file_keeps_last` on two concrete CSV paths. -/
theorem c2_import_file_keeps_last_witness :
    (∀ g ∈ [csvFileA] ++ [csvFileB], isCsvFile g.name = true ∨ isExcelFile g.name = true) ∧
      import_file ([csvFileA] ++ [csvFileB]) = .ok (some csvFileB.data) :=
  ⟨by decide, c2_import_file_keeps_last [csvFileA] csvFileB (by decide)⟩

/-- `dateLE` is reflexive. -/
theorem dateLE_refl (a : Date) : dateLE a a := by unfold dateLE; omega

/-- `dateLE` is transitive. -/
theorem dateLE_trans {a b c : Date} (h1 : dateLE a b) (h2 : dateLE b c) : dateLE a c := by
  unfold dateLE at *; omega

/-- `dateLE` is total. -/
theorem dateLE_total (a b : Date) : dateLE a b ∨ dateLE b a := by unfold dateLE; omega

/-- The fold computing the minimum is a lower bound. -/
theorem foldl_dateMinB_le (ds : List Date) (a : Date) :
    dateLE (ds.foldl dateMinB a) a ∧ ∀ d ∈ ds, dateLE (ds.foldl dateMinB a) d := by
  induction ds generalizing a with
  | nil => exact ⟨dateLE_refl a, by simp⟩
  | cons b bs ih =>
    have hmin : dateLE (dateMinB a b) a ∧ dateLE (dateMinB a b) b := by
      unfold dateMinB
      by_cases h : dateLE a b
      · simp only [if_pos h]; exact ⟨dateLE_refl a, h⟩
      · rcases dateLE_total a b with h' | h'
        · exact absurd h' h
        · simp only [if_neg h]; exact ⟨h', dateLE_refl b⟩
    obtain ⟨ih1, ih2⟩ := ih (dateMinB a b)
    rw [List.foldl_cons]
    refine ⟨dateLE_trans ih1 hmin.1, ?_⟩
    intro d hd
    rcases List.mem_cons.mp hd with rfl | hd
    · exact dateLE_trans ih1 hmin.2
    · exact ih2 d hd

/-- The fold computing the maximum returns a list element or the seed. -/
theorem foldl_dateMaxB_mem (ds : List Date) (a : Date) :
    ds.foldl dateMaxB a = a ∨ ds.foldl dateMaxB a ∈ ds := by
  induction ds generalizing a with
  | nil => exact .inl rfl
  | cons b bs ih =>
    have hab : dateMaxB a b = a ∨ dateMaxB a b = b := by
      unfold dateMaxB; split <;> simp
    rw [List.foldl_cons]
    rcases ih (dateMaxB a b) with h | h
    · rcases hab with h' | h'
      · exact .inl (by rw [h, h'])
      · exact .inr (by rw [h, h']; exact List.mem_cons_self b bs)
    · exact .inr (List.mem_cons_of_mem _ h)

/-- `Series.min` is a lower bound for the column. -/
theorem listMinD_le {l : List Date} {mn : Date} (h : listMinD l = some mn) :
    ∀ d ∈ l, dateLE mn d := by
  match l with
  | [] => simp [listMinD] at h
  | d :: ds =>
    simp only [listMinD, Option.some.injEq] at h
    intro x hx
    rcases List.mem_cons.mp hx with rfl | hx
    · rw [← h]; exact (foldl_dateMinB_le ds x).1
    · rw [← h]; exact (foldl_dateMinB_le ds d).2 x hx

/-- `Series.max` is an element of the column. -/
theorem listMaxD_mem {l : List Date} {mx : Date} (h : listMaxD l = some mx) : mx ∈ l := by
  match l with
  | [] => simp [listMaxD] at h
  | d :: ds =>
    simp only [listMaxD, Option.some.injEq] at h
    rcases foldl_dateMaxB_mem ds d with h' | h'
    · rw [← h, h']; exact List.mem_cons_self d ds
    · rw [← h]; exact List.mem_cons_of_mem _ h'

/-- The generated month range is a block of consecutive months. -/
theorem dateRangeAux_map_ym (fuel : Nat) (cur e : Date) :
    (dateRangeAux fuel cur e).map Date.ym
      = List.range' cur.ym (dateRangeAux fuel cur e).length := by
  induction fuel generalizing cur with
  | zero => rfl
  | succ n ih =>
    unfold dateRangeAux
    by_cases h : dateLE cur e
    · simp only [if_pos h, List.map_cons, List.length_cons, List.range'_succ]
      rw [ih (addMonth cur)]
      rfl
    · simp [if_neg h]

/-- The month range never passes the end month. -/
theorem dateRangeAux_length_le (fuel : Nat) (cur e : Date) :
    (dateRangeAux fuel cur e).length ≤ e.ym + 1 - cur.ym := by
  induction fuel generalizing cur with
  | zero => simp [dateRangeAux]
  | succ n ih =>
    unfold dateRangeAux
    by_cases h : dateLE cur e
    · have h1 : cur.ym ≤ e.ym := by unfold dateLE at h; omega
      have h2 := ih (addMonth cur)
      have h3 : (addMonth cur).ym = cur.ym + 1 := rfl
      rw [h3] at h2
      simp only [if_pos h, List.length_cons]
      omega
    · simp [if_neg h]

/-- With sufficient fuel the month range reaches at least the month before
the end month. -/
theorem dateRangeAux_length_ge (fuel : Nat) (cur e : Date) (hf : e.ym - cur.ym ≤ fuel) :
    e.ym - cur.ym ≤ (dateRangeAux fuel cur e).length := by
  induction fuel generalizing cur with
  | zero => omega
  | succ n ih =>
    by_cases hlt : cur.ym < e.ym
    · have h : dateLE cur e := Or.inl hlt
      have h3 : (addMonth cur).ym = cur.ym + 1 := rfl
      have h4 := ih (addMonth cur) (by rw [h3]; omega)
      rw [h3] at h4
      unfold dateRangeAux
      rw [if_pos h]
      simp only [List.length_cons]
      omega
    · omega

/-- The month-coverage step computes exactly the spec's missing-month set:
the range `date_range(min, max)` may fall one month short of the latest
month, but that month is present in the column anyway, so the reported
difference always equals the full-range difference. -/
theorem validateMonths_eq_spec (mn mx : Date) (actual : List Nat)
    (hle : dateLE mn mx) (hmem : mx.ym ∈ actual) :
    validateMonths mn mx actual
      = (specMissingMonths mn mx actual, (specMissingMonths mn mx actual).isEmpty) := by
  have hmnmx : mn.ym ≤ mx.ym := by unfold dateLE at hle; omega
  have hmap := dateRangeAux_map_ym (mx.ym + 2 - mn.ym) mn mx
  have hub := dateRangeAux_length_le (mx.ym + 2 - mn.ym) mn mx
  have hlb := dateRangeAux_length_ge (mx.ym + 2 - mn.ym) mn mx (by omega)
  set n := (dateRangeAux (mx.ym + 2 - mn.ym) mn mx).length with hn
  have hfil :
      ((dateRange mn mx).map Date.ym).dedup.filter (fun m => !(actual.contains m))
        = specMissingMonths mn mx actual := by
    rw [show (dateRange mn mx).map Date.ym = List.range' mn.ym n from hmap,
      List.dedup_eq_self.mpr (List.nodup_range' _ _)]
    unfold specMissingMonths
    rcases (by omega : n = mx.ym + 1 - mn.ym ∨ n = mx.ym - mn.ym) with h | h
    · rw [h]
    · rw [h, show mx.ym + 1 - mn.ym = (mx.ym - mn.ym) + 1 from by omega, List.range'_concat,
        List.filter_append, show mn.ym + 1 * (mx.ym - mn.ym) = mx.ym from by omega]
      simp [hmem]
  have hsorted : (specMissingMonths mn mx actual).Sorted (· ≤ ·) := by
    unfold specMissingMonths
    exact ((List.pairwise_lt_range' _ _).sublist (List.filter_sublist _)).imp Nat.le_of_lt
  simp only [validateMonths]
  rw [hfil]
  rw [show sortNat (specMissingMonths mn mx actual) = specMissingMonths mn mx actual from
    List.Sorted.insertionSort_eq hsorted]

/-- Converting a column of date cells back to dates succeeds. -/
theorem mapToDates_map (dates : List Date) : mapToDates (dates.map Value.date) = some dates := by
  induction dates with
  | nil => rfl
  | cons d ds ih => simp [mapToDates, toDate?, ih]

/-- Column lookup fails exactly on absent columns. -/
theorem idxOf?_eq_none {c : String} {l : List String} (h : c ∉ l) : idxOf? c l = none := by
  induction l with
  | nil => rfl
  | cons x xs ih =>
    simp only [List.mem_cons, not_or] at h
    have hne : ¬(x = c) := fun hh => h.1 hh.symm
    simp [idxOf?, hne, ih h.2]

/-- **C4**: on a dataset with the five canonical columns and parsed dates,
`validate` reports exactly the year-month buckets absent from the `Date`
column within the full contiguous month range from the earliest to the
latest date (the latest month included), and returns `true` iff that set is
empty. -/
theorem c4_validate_month_coverage (f : Frame) (c : Bool) (dates : List Date) (mn mx : Date)
    (hcols : ∀ col ∈ COLUMN_NAMES, col ∈ f.cols)
    (hdates : getCol f "Date" = .ok (dates.map Value.date))
    (hmn : listMinD dates = some mn) (hmx : listMaxD dates = some mx) :
    validate f c
      = .ok (specMissingMonths mn mx (dates.map Date.ym),
          (specMissingMonths mn mx (dates.map Date.ym)).isEmpty) := by
  have hmc : COLUMN_NAMES.filter (fun col => !(f.cols.contains col)) = [] := by
    rw [List.filter_eq_nil_iff]
    intro a ha
    simp [hcols a ha]
  have hle : dateLE mn mx := listMinD_le hmn mx (listMaxD_mem hmx)
  have hmem : mx.ym ∈ dates.map Date.ym := List.mem_map_of_mem Date.ym (listMaxD_mem hmx)
  unfold validate
  rw [hmc, hdates]
  simp only [List.isEmpty_nil, Bool.not_true, Bool.false_and, Bool.false_eq_true, if_false,
    Except.bind, mapToDates_map, hmn, hmx]
  rw [validateMonths_eq_spec mn mx (dates.map Date.ym) hle hmem]

/-- Witness for `c4_validate_month_coverage`: dates in January and March 2015
report exactly February 2015 (month 24181) missing and return `false`. -/
theorem c4_validate_month_coverage_witness :
    (∀ col ∈ COLUMN_NAMES, col ∈ c4Frame.cols) ∧
      getCol c4Frame "Date" = .ok (c4Dates.map Value.date) ∧
      listMinD c4Dates = some ⟨24180, 1⟩ ∧
      listMaxD c4Dates = some ⟨24182, 10⟩ ∧
      validate c4Frame true
        = .ok (specMissingMonths ⟨24180, 1⟩ ⟨24182, 10⟩ (c4Dates.map Date.ym),
            (specMissingMonths ⟨24180, 1⟩ ⟨24182, 10⟩ (c4Dates.map Date.ym)).isEmpty) ∧
      specMissingMonths ⟨24180, 1⟩ ⟨24182, 10⟩ (c4Dates.map Date.ym) = [24181] :=
  ⟨by decide, rfl, rfl, rfl,
    c4_validate_month_coverage c4Frame true c4Dates ⟨24180, 1⟩ ⟨24182, 10⟩ (by decide) rfl rfl
      rfl,
    by decide⟩

/-- **C10**: on a dataset lacking a `Date` column, `validate` with
`continue_on_error=True` passes the column check and then raises `KeyError`
from the month-coverage step instead of returning a boolean. -/
theorem c10_validate_missing_date (f : Frame) (h : "Date" ∉ f.cols) :
    validate f true = .error .keyError := by
  have hg : getCol f "Date" = .error .keyError := by simp [getCol, idxOf?_eq_none h]
  unfold validate
  simp only [Bool.not_true, Bool.and_false, Bool.false_eq_true, if_false, hg, Except.bind]

/-- Witness for `c10_validate_missing_date` on a frame with only a `Type`
column. -/
theorem c10_validate_missing_date_witness :
    "Date" ∉ Frame.cols ⟨["Type"], []⟩ ∧
      validate ⟨["Type"], []⟩ true = .error .keyError :=
  ⟨by decide, c10_validate_missing_date ⟨["Type"], []⟩ (by decide)⟩

/-- **C6**: on the spec's aggregation example the summary reports exactly
`Entertainment = 0.50`, `Food = 1.00`, `Other = 2.00` (the unmatched
`Item 3`). -/
theorem c6_aggregation_example :
    calc_summary c6Config c6Rows = [("Entertainment", 1/2), ("Food", 1), ("Other", 2)] := by
  norm_num +decide [calc_summary, groupSum, sortStrings, insertSorted, dedupFirst, dedupFirstAux,
    sumFor, applyRules, replaceExact, lookupExact, replacePatterns, strReplaceAll, replaceSubAux,
    c6Config, c6Rows, strLeB, lexLeChars]

/-- **C3** (counterexample): with exact rule `Item 1 → Food` and pattern rule
`Foo → Junk`, the row `Item 1` is relabelled `Junkd` — the pattern rule,
applied after the exact rule, rewrites the category label the exact rule
produced — and its amount lands in `Other`, so the claim that the summary
labels such a row with the exact rule's category fails. -/
theorem c3_pattern_rewrites_exact_label :
    applyRules c3Config "Item 1" = "Junkd" ∧
      calc_summary c3Config [("Item 1", 1)] = [("Other", 1)] := by
  constructor
  · norm_num +decide [applyRules, replaceExact, lookupExact, replacePatterns, strReplaceAll,
      replaceSubAux, c3Config]
  · norm_num +decide [calc_summary, groupSum, sortStrings, insertSorted, dedupFirst,
      dedupFirstAux, sumFor, applyRules, replaceExact, lookupExact, replacePatterns,
      strReplaceAll, replaceSubAux, c3Config, strLeB, lexLeChars]

/-- **C3** (amended): exact rules are applied before pattern rules, so when a
row's `Description` exactly matches an exact-rule key, the pattern rules never
see the original text but only the produced category label: the row is
labelled with the exact rule's category whenever no pattern rule rewrites that
category text (a pattern rule matching only the original text has no effect;
one matching the produced label rewrites it). -/
theorem c3_exact_rule_precedence (cfg : Config) (desc cat : String)
    (h : lookupExact cfg.categories desc = some cat)
    (hfix : replacePatterns cfg.regexes cat = cat) :
    applyRules cfg desc = cat := by
  simp [applyRules, replaceExact, h, hfix]

/-- Witness for `c3_exact_rule_precedence`: an exact rule together with a
pattern rule that does not touch the produced label. -/
theorem c3_exact_rule_precedence_witness :
    lookupExact (Config.categories ⟨[("Item 1", "Food")], [("Bar", "X")]⟩) "Item 1"
        = some "Food" ∧
      replacePatterns (Config.regexes ⟨[("Item 1", "Food")], [("Bar", "X")]⟩) "Food" = "Food" ∧
      applyRules ⟨[("Item 1", "Food")], [("Bar", "X")]⟩ "Item 1" = "Food" :=
  ⟨rfl, rfl, c3_exact_rule_precedence ⟨[("Item 1", "Food")], [("Bar", "X")]⟩ "Item 1" "Food"
    rfl rfl⟩

/-- **C5** (code evaluation at the failing input): in the interactive learning
loop the numeric answer `"0"` is accepted and silently assigns the *last*
existing category — `all_categories[int("0") - 1]` is `all_categories[-1]` by
Python negative indexing — instead of being rejected like other out-of-range
numeric answers. -/
theorem c5_zero_input_assigns_last_category :
    addCategoryRegex ⟨[], []⟩ ["Entertainment", "Food"] "Item 3" "0" false
      = (⟨[("Item 3", "Food")], []⟩, ["Entertainment", "Food"]) := rfl

/-- **C9**: persisting the rule store opens the configuration file for writing
before creating its parent directory, so whenever the directory does not exist
the save fails with a file-not-found error and nothing is written. -/
theorem c9_save_fails_without_config_dir (fs : FileSys) (cfg : Config)
    (h : fs.configDirExists = false) : saveConfig cfg fs = .error .fileNotFound := by
  simp [saveConfig, openForWrite, h, Bind.bind, Except.bind]

/-- Witness for `c9_save_fails_without_config_dir` at a concrete state. -/
theorem c9_save_fails_witness :
    FileSys.configDirExists ⟨false, none⟩ = false ∧
      saveConfig ⟨[], []⟩ ⟨false, none⟩ = .error .fileNotFound :=
  ⟨rfl, c9_save_fails_without_config_dir ⟨false, none⟩ ⟨[], []⟩ rfl⟩


/-- A column whose first cell is neither missing nor a `D`/`C` marker fails
the debit/credit sniff. -/
theorem isDCCol_cons_false (v : Value) (tl : List Value)
    (h1 : (v == Value.na) = false) (h2 : (v == Value.str "D") = false)
    (h3 : (v == Value.str "C") = false) : isDCCol (v :: tl) = false := by
  simp [isDCCol, nonNA, List.filter_cons, h1, h2, h3]

/-- An ISO-rendered date string is not a debit/credit marker. -/
theorem isoStr_ne_marker {d : Date} (h : parseIso? (isoStr d) = some d) :
    isoStr d ≠ "D" ∧ isoStr d ≠ "C" := by
  constructor
  · intro he
    rw [he] at h
    rw [show parseIso? "D" = none from rfl] at h
    exact Option.noConfusion h
  · intro he
    rw [he] at h
    rw [show parseIso? "C" = none from rfl] at h
    exact Option.noConfusion h

/-- The serialized `Date` column never looks like a debit/credit column. -/
theorem isDC_ser_date (rows : List (List Value)) (H : ∀ r ∈ rows, GoodRow r) :
    isDCCol (getColD ⟨COLUMN_NAMES, rows.map serRow⟩ "Date") = false := by
  cases rows with
  | nil => rfl
  | cons r rs =>
    obtain ⟨d, t, s, a, b, hr, hds, hdp, hts, hss⟩ := H r (by simp)
    have hne := isoStr_ne_marker hdp
    have hcol : getColD ⟨COLUMN_NAMES, (r :: rs).map serRow⟩ "Date"
        = Value.str (isoStr d) :: (rs.map serRow).map (fun r => getCell r 0) := by
      subst hr
      simp [getColD, idxOf?, serRow, toCsvCell, getCell]
    rw [hcol]
    apply isDCCol_cons_false
    · rfl
    · simp [beq_eq_false_iff_ne, hne.1]
    · simp [beq_eq_false_iff_ne, hne.2]

/-- The serialized `Amount`/`Balance` columns (numeric cells) never look like
debit/credit columns. -/
theorem isDC_ser_num (rows : List (List Value)) (H : ∀ r ∈ rows, GoodRow r) (i : Nat)
    (hi : i = 3 ∨ i = 4) :
    isDCCol ((rows.map serRow).map (fun r => getCell r i)) = false := by
  cases rows with
  | nil => rcases hi with rfl | rfl <;> rfl
  | cons r rs =>
    obtain ⟨d, t, s, a, b, hr, hds, hdp, hts, hss⟩ := H r (by simp)
    subst hr
    rcases hi with rfl | rfl
    · exact isDCCol_cons_false _ _ rfl rfl rfl
    · exact isDCCol_cons_false _ _ rfl rfl rfl

/-- Serialization preserves the `Type` column. -/
theorem getColD_ser_type (rows : List (List Value)) (H : ∀ r ∈ rows, GoodRow r) :
    getColD ⟨COLUMN_NAMES, rows.map serRow⟩ "Type" = getColD ⟨COLUMN_NAMES, rows⟩ "Type" := by
  simp only [getColD, show idxOf? "Type" COLUMN_NAMES = some 1 from rfl, List.map_map]
  apply List.map_congr_left
  intro r hr
  obtain ⟨d, t, s, a, b, rfl, _, _, _, _⟩ := H r hr
  rfl

/-- Serialization preserves the `Description` column. -/
theorem getColD_ser_desc (rows : List (List Value)) (H : ∀ r ∈ rows, GoodRow r) :
    getColD ⟨COLUMN_NAMES, rows.map serRow⟩ "Description"
      = getColD ⟨COLUMN_NAMES, rows⟩ "Description" := by
  simp only [getColD, show idxOf? "Description" COLUMN_NAMES = some 2 from rfl, List.map_map]
  apply List.map_congr_left
  intro r hr
  obtain ⟨d, t, s, a, b, rfl, _, _, _, _⟩ := H r hr
  rfl

/-- Stripping the serialized `Date` column changes nothing. -/
theorem mapCol_strip_date (rows : List (List Value)) (H : ∀ r ∈ rows, GoodRow r) :
    mapCol ⟨COLUMN_NAMES, rows.map serRow⟩ "Date" stripValue
      = ⟨COLUMN_NAMES, rows.map serRow⟩ := by
  simp only [mapCol, show idxOf? "Date" COLUMN_NAMES = some 0 from rfl, List.map_map]
  congr 1
  apply List.map_congr_left
  intro r hr
  obtain ⟨d, t, s, a, b, rfl, hds, hdp, hts, hss⟩ := H r hr
  simp [serRow, toCsvCell, getCell, stripValue, hds]

/-- Stripping the serialized `Type` column changes nothing. -/
theorem mapCol_strip_type (rows : List (List Value)) (H : ∀ r ∈ rows, GoodRow r) :
    mapCol ⟨COLUMN_NAMES, rows.map serRow⟩ "Type" stripValue
      = ⟨COLUMN_NAMES, rows.map serRow⟩ := by
  simp only [mapCol, show idxOf? "Type" COLUMN_NAMES = some 1 from rfl, List.map_map]
  congr 1
  apply List.map_congr_left
  intro r hr
  obtain ⟨d, t, s, a, b, rfl, hds, hdp, hts, hss⟩ := H r hr
  simp [serRow, toCsvCell, getCell, stripValue, hts]

/-- Stripping the serialized `Description` column changes nothing. -/
theorem mapCol_strip_desc (rows : List (List Value)) (H : ∀ r ∈ rows, GoodRow r) :
    mapCol ⟨COLUMN_NAMES, rows.map serRow⟩ "Description" stripValue
      = ⟨COLUMN_NAMES, rows.map serRow⟩ := by
  simp only [mapCol, show idxOf? "Description" COLUMN_NAMES = some 2 from rfl, List.map_map]
  congr 1
  apply List.map_congr_left
  intro r hr
  obtain ⟨d, t, s, a, b, rfl, hds, hdp, hts, hss⟩ := H r hr
  simp [serRow, toCsvCell, getCell, stripValue, hss]

/-- Numeric coercion of the serialized `Amount` column changes nothing. -/
theorem mapCol_num_amount (rows : List (List Value)) (H : ∀ r ∈ rows, GoodRow r) :
    mapCol ⟨COLUMN_NAMES, rows.map serRow⟩ "Amount" toNumericValue
      = ⟨COLUMN_NAMES, rows.map serRow⟩ := by
  simp only [mapCol, show idxOf? "Amount" COLUMN_NAMES = some 3 from rfl, List.map_map]
  congr 1
  apply List.map_congr_left
  intro r hr
  obtain ⟨d, t, s, a, b, rfl, _, _, _, _⟩ := H r hr
  rfl

/-- Numeric coercion of the serialized `Balance` column changes nothing. -/
theorem mapCol_num_balance (rows : List (List Value)) (H : ∀ r ∈ rows, GoodRow r) :
    mapCol ⟨COLUMN_NAMES, rows.map serRow⟩ "Balance" toNumericValue
      = ⟨COLUMN_NAMES, rows.map serRow⟩ := by
  simp only [mapCol, show idxOf? "Balance" COLUMN_NAMES = some 4 from rfl, List.map_map]
  congr 1
  apply List.map_congr_left
  intro r hr
  obtain ⟨d, t, s, a, b, rfl, _, _, _, _⟩ := H r hr
  rfl

/-- The cleanup loop step is the identity on the serialized `Date` column. -/
theorem step_ser_date (rows : List (List Value)) (H : ∀ r ∈ rows, GoodRow r) :
    cleanupColumnStep ⟨COLUMN_NAMES, rows.map serRow⟩ "Date"
      = ⟨COLUMN_NAMES, rows.map serRow⟩ := by
  simp only [cleanupColumnStep, mapCol_strip_date rows H, ite_self,
    show (floatColumns.contains "Date") = false from rfl, Bool.false_eq_true, if_false,
    isDC_ser_date rows H, show strContains "Date" "Unnamed" = false from rfl]

/-- The cleanup loop step is the identity on the serialized `Type` column. -/
theorem step_ser_type (rows : List (List Value)) (H : ∀ r ∈ rows, GoodRow r)
    (hT : isDCCol (getColD ⟨COLUMN_NAMES, rows⟩ "Type") = false) :
    cleanupColumnStep ⟨COLUMN_NAMES, rows.map serRow⟩ "Type"
      = ⟨COLUMN_NAMES, rows.map serRow⟩ := by
  have hdc : isDCCol (getColD ⟨COLUMN_NAMES, rows.map serRow⟩ "Type") = false := by
    rw [getColD_ser_type rows H]; exact hT
  simp only [cleanupColumnStep, mapCol_strip_type rows H, ite_self,
    show (floatColumns.contains "Type") = false from rfl, Bool.false_eq_true, if_false,
    hdc, show strContains "Type" "Unnamed" = false from rfl]

/-- The cleanup loop step is the identity on the serialized `Description`
column. -/
theorem step_ser_desc (rows : List (List Value)) (H : ∀ r ∈ rows, GoodRow r)
    (hD : isDCCol (getColD ⟨COLUMN_NAMES, rows⟩ "Description") = false) :
    cleanupColumnStep ⟨COLUMN_NAMES, rows.map serRow⟩ "Description"
      = ⟨COLUMN_NAMES, rows.map serRow⟩ := by
  have hdc : isDCCol (getColD ⟨COLUMN_NAMES, rows.map serRow⟩ "Description") = false := by
    rw [getColD_ser_desc rows H]; exact hD
  simp only [cleanupColumnStep, mapCol_strip_desc rows H, ite_self,
    show (floatColumns.contains "Description") = false from rfl, Bool.false_eq_true, if_false,
    hdc, show strContains "Description" "Unnamed" = false from rfl]

/-- A serialized numeric column is not string-typed. -/
theorem stringColB_ser_num (rows : List (List Value)) (H : ∀ r ∈ rows, GoodRow r) (i : Nat)
    (hi : i = 3 ∨ i = 4) :
    stringColB ((rows.map serRow).map (fun r => getCell r i)) = false := by
  simp only [stringColB, Bool.and_eq_false_iff]
  left
  rw [List.any_eq_false]
  intro v hv
  rw [List.map_map] at hv
  obtain ⟨r, hr, hveq⟩ := List.mem_map.mp hv
  obtain ⟨d, t, s, a, b, hshape, _, _, _, _⟩ := H r hr
  subst hshape
  rcases hi with rfl | rfl
  · rw [← hveq]; simp [serRow, toCsvCell, getCell, isStrV]
  · rw [← hveq]; simp [serRow, toCsvCell, getCell, isStrV]

/-- The cleanup loop step is the identity on the serialized `Amount` column. -/
theorem step_ser_amount (rows : List (List Value)) (H : ∀ r ∈ rows, GoodRow r) :
    cleanupColumnStep ⟨COLUMN_NAMES, rows.map serRow⟩ "Amount"
      = ⟨COLUMN_NAMES, rows.map serRow⟩ := by
  have hs : stringColB (getColD ⟨COLUMN_NAMES, rows.map serRow⟩ "Amount") = false := by
    simp only [getColD, show idxOf? "Amount" COLUMN_NAMES = some 3 from rfl]
    exact stringColB_ser_num rows H 3 (.inl rfl)
  have hdc : isDCCol (getColD ⟨COLUMN_NAMES, rows.map serRow⟩ "Amount") = false := by
    simp only [getColD, show idxOf? "Amount" COLUMN_NAMES = some 3 from rfl]
    exact isDC_ser_num rows H 3 (.inl rfl)
  simp only [cleanupColumnStep, hs, Bool.false_eq_true, if_false,
    show (floatColumns.contains "Amount") = true from rfl, if_true,
    mapCol_num_amount rows H, hdc,
    show strContains "Amount" "Unnamed" = false from rfl]

/-- The cleanup loop step is the identity on the serialized `Balance` column. -/
theorem step_ser_balance (rows : List (List Value)) (H : ∀ r ∈ rows, GoodRow r) :
    cleanupColumnStep ⟨COLUMN_NAMES, rows.map serRow⟩ "Balance"
      = ⟨COLUMN_NAMES, rows.map serRow⟩ := by
  have hs : stringColB (getColD ⟨COLUMN_NAMES, rows.map serRow⟩ "Balance") = false := by
    simp only [getColD, show idxOf? "Balance" COLUMN_NAMES = some 4 from rfl]
    exact stringColB_ser_num rows H 4 (.inr rfl)
  have hdc : isDCCol (getColD ⟨COLUMN_NAMES, rows.map serRow⟩ "Balance") = false := by
    simp only [getColD, show idxOf? "Balance" COLUMN_NAMES = some 4 from rfl]
    exact isDC_ser_num rows H 4 (.inr rfl)
  simp only [cleanupColumnStep, hs, Bool.false_eq_true, if_false,
    show (floatColumns.contains "Balance") = true from rfl, if_true,
    mapCol_num_balance rows H, hdc,
    show strContains "Balance" "Unnamed" = false from rfl]

/-- Parsing the serialized `Date` column back succeeds and recovers the
original date cells. -/
theorem mapParseDates_ser (rows : List (List Value)) (H : ∀ r ∈ rows, GoodRow r) :
    mapParseDates (List.map ((fun r => getCell r 0) ∘ serRow) rows)
      = some (rows.map (fun r => getCell r 0)) := by
  induction rows with
  | nil => rfl
  | cons r rs ih =>
    obtain ⟨d, t, s, a, b, rfl, hds, hdp, hts, hss⟩ := H r (List.mem_cons_self r rs)
    have ihh := ih (fun x hx => H x (by simp [hx]))
    simp only [List.map_cons, mapParseDates,
      show ((fun r => getCell r 0) ∘ serRow)
          [Value.date d, Value.str t, Value.str s, Value.num a, Value.num b]
        = Value.str (isoStr d) from rfl,
      show getCell [Value.date d, Value.str t, Value.str s, Value.num a, Value.num b] 0
        = Value.date d from rfl,
      parseDateCell, hdp, Option.map_some', ihh]

/-- The `Date` step recovers the original frame from the serialized one. -/
theorem cleanupDate_ser (rows : List (List Value)) (H : ∀ r ∈ rows, GoodRow r) :
    cleanupDate false ⟨COLUMN_NAMES, rows.map serRow⟩ = .ok ⟨COLUMN_NAMES, rows⟩ := by
  simp only [cleanupDate, show idxOf? "Date" COLUMN_NAMES = some 0 from rfl, List.map_map,
    mapParseDates_ser rows H]
  congr 1
  congr 1
  rw [List.zip_map', List.map_map]
  nth_rewrite 2 [show rows = rows.map id from (List.map_id rows).symm]
  apply List.map_congr_left
  intro r hr
  obtain ⟨d, t, s, a, b, rfl, _, _, _, _⟩ := H r hr
  rfl

/-- **C8** (amended): writing a normalized dataset to a fresh ledger path and
reading it back recovers the dataset exactly, provided its cell values
round-trip through the CSV text codec and no text column consists solely of
debit/credit markers (which would re-trigger the sign heuristic on read). -/
theorem c8_fresh_roundtrip (df : Frame) (h1 : df.cols = COLUMN_NAMES)
    (H : ∀ r ∈ df.rows, GoodRow r)
    (hT : isDCCol (getColD df "Type") = false)
    (hD : isDCCol (getColD df "Description") = false) :
    read_from_csv (toCsvFile df) false = .ok df := by
  obtain ⟨cols, rows⟩ := df
  simp only [Frame.mk.injEq] at h1 ⊢
  subst h1
  simp only [getColD] at hT hD
  unfold read_from_csv cleanup_columns
  have e0 : toCsvFile ⟨COLUMN_NAMES, rows⟩ = ⟨COLUMN_NAMES, rows.map serRow⟩ := rfl
  rw [e0]
  have e1 : cleanColNames ⟨COLUMN_NAMES, rows.map serRow⟩
      = ⟨COLUMN_NAMES, rows.map serRow⟩ := rfl
  have e2 : applyAliases ⟨COLUMN_NAMES, rows.map serRow⟩
      = ⟨COLUMN_NAMES, rows.map serRow⟩ := rfl
  have e3 : cleanupLoop ⟨COLUMN_NAMES, rows.map serRow⟩
      = ⟨COLUMN_NAMES, rows.map serRow⟩ := by
    unfold cleanupLoop
    rw [show Frame.cols ⟨COLUMN_NAMES, rows.map serRow⟩
      = ["Date", "Type", "Description", "Amount", "Balance"] from rfl]
    simp only [List.foldl_cons, List.foldl_nil]
    rw [step_ser_date rows H, step_ser_type rows H (by simpa [getColD] using hT),
      step_ser_desc rows H (by simpa [getColD] using hD), step_ser_amount rows H,
      step_ser_balance rows H]
  have e4 : paidInFold ⟨COLUMN_NAMES, rows.map serRow⟩
      = ⟨COLUMN_NAMES, rows.map serRow⟩ := rfl
  rw [e1, e2, e3, e4, cleanupDate_ser rows H]

/-- Witness for `c8_fresh_roundtrip` on a one-row normalized frame. -/
theorem c8_fresh_roundtrip_witness :
    (Frame.cols ⟨COLUMN_NAMES, [[.date ⟨24192, 1⟩, .str "A", .str "x", .num 1, .num 2]]⟩
        = COLUMN_NAMES) ∧
      (∀ r ∈ Frame.rows ⟨COLUMN_NAMES,
          [[.date ⟨24192, 1⟩, .str "A", .str "x", .num 1, .num 2]]⟩, GoodRow r) ∧
      read_from_csv
          (toCsvFile ⟨COLUMN_NAMES, [[.date ⟨24192, 1⟩, .str "A", .str "x", .num 1, .num 2]]⟩)
          false
        = .ok ⟨COLUMN_NAMES, [[.date ⟨24192, 1⟩, .str "A", .str "x", .num 1, .num 2]]⟩ := by
  have hg : ∀ r ∈ Frame.rows ⟨COLUMN_NAMES,
      [[.date ⟨24192, 1⟩, .str "A", .str "x", .num 1, .num 2]]⟩, GoodRow r := by
    intro r hr
    simp only [List.mem_singleton] at hr
    subst hr
    exact ⟨⟨24192, 1⟩, "A", "x", 1, 2, rfl, rfl, rfl, rfl, rfl⟩
  exact ⟨rfl, hg, c8_fresh_roundtrip _ rfl hg (by decide) (by decide)⟩

/-- **C8** (counterexample): `c8Norm` is a normalized dataset (it is what
`cleanup_columns` produces from the raw frame `c8Raw`), yet writing it to a
fresh ledger and reading it back re-applies the debit/credit sign heuristic
and negates the first row's balance again, so the round trip is not the
identity. -/
theorem c8_roundtrip_counterexample :
    read_from_csv c8Raw false = .ok c8Norm ∧
      read_from_csv (toCsvFile c8Norm) false = .ok c8Readback ∧
      c8Readback ≠ c8Norm := by
  refine ⟨by decide, by decide, by decide⟩

/-- Reindexing a row onto its own distinct column list is the identity. -/
theorem reindexRow_self (cols : List String) (h : cols.Nodup) (r : List Value)
    (hl : r.length = cols.length) : reindexRow cols cols r = r := by
  induction cols generalizing r with
  | nil =>
    cases r with
    | nil => rfl
    | cons v vs => simp at hl
  | cons c cs ih =>
    cases r with
    | nil => simp at hl
    | cons v vs =>
      rw [List.nodup_cons] at h
      have hlen : vs.length = cs.length := by simpa using hl
      show List.map _ (c :: cs) = v :: vs
      rw [List.map_cons]
      congr 1
      · simp [idxOf?, getCell]
      · have hcg : ∀ x ∈ cs,
            (fun cc => match idxOf? cc (c :: cs) with
              | some i => getCell (v :: vs) i
              | none => Value.na) x
            = (fun cc => match idxOf? cc cs with
              | some i => getCell vs i
              | none => Value.na) x := by
          intro x hx
          have hxc : ¬(c = x) := fun he => h.1 (he ▸ hx)
          simp only [idxOf?, if_neg hxc]
          cases hidx : idxOf? x cs with
          | none => simp
          | some i => simp [getCell]
        rw [List.map_congr_left hcg]
        exact ih h.2 vs hlen

/-- Rows already seen are all dropped. -/
theorem dropDupAux_all_seen (seen l : List (List Value)) (h : ∀ r ∈ l, r ∈ seen) :
    dropDupAux seen l = [] := by
  induction l with
  | nil => rfl
  | cons x xs ih =>
    have hx : seen.contains x = true := by simp [h x (List.mem_cons_self x xs)]
    simp only [dropDupAux, hx, if_true]
    exact ih (fun r hr => h r (List.mem_cons_of_mem x hr))

/-- Processing a block of fresh distinct rows keeps them and extends the seen
set by exactly those rows. -/
theorem dropDupAux_fresh_append (l rest : List (List Value)) :
    ∀ seen, l.Nodup → (∀ r ∈ l, r ∉ seen) →
      ∃ seen2, dropDupAux seen (l ++ rest) = l ++ dropDupAux seen2 rest ∧
        ∀ r, r ∈ seen2 ↔ r ∈ l ∨ r ∈ seen := by
  induction l with
  | nil => exact fun seen _ _ => ⟨seen, rfl, by simp⟩
  | cons x xs ih =>
    intro seen hn hs
    rw [List.nodup_cons] at hn
    have hx : seen.contains x = false := by simp [hs x (List.mem_cons_self x xs)]
    obtain ⟨seen2, heq, hmem⟩ := ih (x :: seen) hn.2 (fun r hr => by
      simp only [List.mem_cons, not_or]
      exact ⟨fun he => hn.1 (he ▸ hr), hs r (List.mem_cons_of_mem x hr)⟩)
    refine ⟨seen2, ?_, ?_⟩
    · simp only [List.cons_append, dropDupAux, hx, Bool.false_eq_true, if_false]
      rw [show xs.append rest = xs ++ rest from rfl, heq]
    · intro r
      rw [hmem r]
      simp only [List.mem_cons]
      tauto

/-- De-duplicating a doubled list of distinct rows keeps exactly one copy. -/
theorem dropDup_append_self (l : List (List Value)) (h : l.Nodup) :
    dropDup (l ++ l) = l := by
  obtain ⟨seen2, heq, hmem⟩ := dropDupAux_fresh_append l l [] h (by simp)
  rw [dropDup, heq, dropDupAux_all_seen seen2 l (fun r hr => (hmem r).mpr (.inl hr)),
    List.append_nil]

/-- `write_to_csv` on an existing ledger, fully reduced. -/
theorem write_to_csv_some (df existing : Frame) (rd cc ce : Bool) :
    write_to_csv df (some existing) rd cc ce
      = (read_from_csv existing false).bind fun dfExisting =>
          if cc && !(checkKey dfExisting.cols == checkKey df.cols) && !ce then
            .ok (some existing)
          else
            .ok (some (toCsvFile (if rd then
              Frame.mk (concatSorted dfExisting df).cols (dropDup (concatSorted dfExisting df).rows)
              else concatSorted dfExisting df))) := rfl

/-- **C7** (amended): with de-duplication enabled, writing a dataset twice to
a fresh ledger path yields the same ledger file as writing it once, provided
the dataset's columns are already alphabetically sorted and distinct, its rows
are aligned and distinct, and reading the written ledger back reproduces the
dataset.  (In general the second write re-sorts the columns and removes
duplicate rows, so the files differ whenever the columns are unsorted or the
rows repeat.) -/
theorem c7_dedup_write_idempotent (df : Frame)
    (hrt : read_from_csv (toCsvFile df) false = .ok df)
    (hsort : sortCols df.cols = df.cols)
    (hnodupC : df.cols.Nodup)
    (hlen : ∀ r ∈ df.rows, r.length = df.cols.length)
    (hnodupR : df.rows.Nodup) :
    writeTwiceState df = writeOnceState df := by
  have hu : unionCols df.cols df.cols = df.cols := by
    unfold unionCols
    rw [List.filter_eq_nil_iff.mpr (fun c hc => by simp [hc]), List.append_nil]
  have hre : df.rows.map (reindexRow df.cols df.cols) = df.rows := by
    nth_rewrite 2 [show df.rows = df.rows.map id from (List.map_id df.rows).symm]
    exact List.map_congr_left (fun r hr => reindexRow_self df.cols hnodupC r (hlen r hr))
  have hcc : concatSorted df df = ⟨df.cols, df.rows ++ df.rows⟩ := by
    unfold concatSorted
    rw [hu, hsort]
    rw [hre]
  unfold writeTwiceState writeOnceState
  rw [show write_to_csv df none true true false = .ok (some (toCsvFile df)) from rfl]
  simp only [Except.bind]
  rw [write_to_csv_some, hrt]
  simp only [Except.bind, beq_self_eq_true, Bool.not_true, Bool.and_false, Bool.false_and,
    Bool.false_eq_true, if_false, if_true, hcc]
  rw [dropDup_append_self df.rows hnodupR]

/-- **C7** (counterexample): writing the canonical-column one-row dataset
`c7Frame` twice with de-duplication yields a ledger whose columns have been
re-sorted alphabetically by `pd.concat(..., sort=True)`, so the file differs
from the single-write ledger. -/
theorem c7_write_twice_not_identical :
    writeOnceState c7Frame = .ok (some (toCsvFile c7Frame)) ∧
      writeTwiceState c7Frame ≠ writeOnceState c7Frame :=
  ⟨rfl, by decide⟩

/-- Witness for `c7_dedup_write_idempotent` on a one-row frame with sorted
columns. -/
theorem c7_dedup_write_idempotent_witness :
    read_from_csv (toCsvFile c7SortedFrame) false = .ok c7SortedFrame ∧
      sortCols c7SortedFrame.cols = c7SortedFrame.cols ∧
      c7SortedFrame.cols.Nodup ∧
      (∀ r ∈ c7SortedFrame.rows, r.length = c7SortedFrame.cols.length) ∧
      c7SortedFrame.rows.Nodup ∧
      writeTwiceState c7SortedFrame = writeOnceState c7SortedFrame :=
  ⟨by decide, by decide, by decide, by decide, by decide,
    c7_dedup_write_idempotent c7SortedFrame (by decide) (by decide) (by decide) (by decide)
      (by decide)⟩

end Bank
